import Mathlib

/-!
Verification of the ITBI data-integration pipeline (ETL and ELT variants).

The development shallowly embeds the transform, load and extraction logic of
the repository: pandas dataframes become column-major frames of cells,
pandas/numpy floats become an explicit type with NaN and infinities over ℚ,
SQLite expressions (REPLACE, CAST AS REAL, CASE, UPDATE/INSERT filters)
become Lean functions over strings and rationals, and the SQLite tables
become lists of records.  Machine floating point is idealised by exact
rationals; string operations are modelled on the underlying character lists.
-/

namespace Itbi

/-- Replacement of every occurrence of the single character `c` by `d`
(the semantics of Python `str.replace(c, d)` and SQLite `REPLACE(s, c, d)`
for one-character patterns). -/
def replaceChar (c d : Char) (l : List Char) : List Char :=
  l.map fun x => if x = c then d else x

/-- Removal of every occurrence of the single character `c`
(the semantics of SQLite `REPLACE(s, c, '')`). -/
def removeChar (c : Char) (l : List Char) : List Char :=
  l.filter fun x => x ≠ c

/-- String version of `replaceChar`. -/
def replaceCharStr (c d : Char) (s : String) : String :=
  ⟨replaceChar c d s.data⟩

/-- String version of `removeChar`. -/
def removeCharStr (c : Char) (s : String) : String :=
  ⟨removeChar c s.data⟩

/-- Base-10 value of a list of digit characters (most significant first). -/
def digitsToNat (ds : List Char) : ℕ :=
  ds.foldl (fun a c => 10 * a + (c.toNat - 48)) 0

/-- Longest prefix of decimal digits, together with the rest of the input. -/
def spanDigits : List Char → List Char × List Char
  | [] => ([], [])
  | c :: cs =>
    if c.isDigit then
      let p := spanDigits cs
      (c :: p.1, p.2)
    else ([], c :: cs)

/-- Optional leading sign of a numeric literal: the sign factor and the rest. -/
def stripSign : List Char → ℚ × List Char
  | [] => (1, [])
  | c :: r => if c = '-' then (-1, r) else if c = '+' then (1, r) else (1, c :: r)

/-- Fractional digits following the integer part of a numeric literal:
empty unless the remaining input starts with a period. -/
def fracDigits : List Char → List Char
  | '.' :: r2 => (spanDigits r2).1
  | _ => []

/-- SQLite `CAST(s AS REAL)`: skip leading spaces, read an optional sign and a
longest numeric prefix `digits[.digits]`, ignore any trailing characters and
return 0 when no digits are present.  Exponents are not modelled; the raw
ITBI values never carry them. -/
def castRealAux (cs0 : List Char) : ℚ :=
  let p := stripSign (cs0.dropWhile fun c => c = ' ')
  let q := spanDigits p.2
  p.1 * ((digitsToNat q.1 : ℚ) +
    (digitsToNat (fracDigits q.2) : ℚ) / (10 : ℚ) ^ (fracDigits q.2).length)

/-- SQLite `CAST(s AS REAL)` on a string. -/
def castReal (s : String) : ℚ :=
  castRealAux s.data

/-- The tail of Python `float` parsing, after the sign and the integer-part
digits `ip` have been consumed: the input must now be empty, or a period
followed by fractional digits and then nothing; at least one digit must be
present overall. -/
def pyFloatTail (sg : ℚ) (ip : List Char) : List Char → Option ℚ
  | [] => if ip = [] then none else some (sg * (digitsToNat ip : ℚ))
  | '.' :: r2 =>
    if (spanDigits r2).2 = [] then
      if ip = [] ∧ (spanDigits r2).1 = [] then none
      else
        some (sg * ((digitsToNat ip : ℚ) +
          (digitsToNat (spanDigits r2).1 : ℚ) / (10 : ℚ) ^ (spanDigits r2).1.length))
    else none
  | _ => none

/-- Python `float(s)` restricted to plain decimal literals
`[sign]digits[.digits]` (the only shapes occurring in the ITBI data;
exponent forms, `inf`/`nan` words and embedded whitespace are not modelled).
Returns `none` exactly when Python raises `ValueError` on such inputs —
in particular any string with two periods is rejected. -/
def pyFloatAux (cs : List Char) : Option ℚ :=
  let p := stripSign cs
  let q := spanDigits p.2
  pyFloatTail p.1 q.1 q.2

/-- Python `float` on a string, as `pyFloatAux`. -/
def pyFloatQ (s : String) : Option ℚ :=
  pyFloatAux s.data

/-- Round half to even at integer precision (the tie rule of Python `round`),
over exact rationals. -/
def rhe (x : ℚ) : ℤ :=
  if Int.fract x < 1 / 2 then ⌊x⌋
  else if 1 / 2 < Int.fract x then ⌊x⌋ + 1
  else if Even ⌊x⌋ then ⌊x⌋ else ⌊x⌋ + 1

/-- Python/pandas `round(x, 2)` idealised over ℚ (round half to even). -/
def round2py (x : ℚ) : ℚ :=
  (rhe (100 * x) : ℚ) / 100

/-- Round half away from zero at integer precision (the tie rule of SQLite
`ROUND`), over exact rationals. -/
def rha (x : ℚ) : ℤ :=
  if 0 ≤ x then ⌊x + 1 / 2⌋ else -⌊-x + 1 / 2⌋

/-- SQLite `ROUND(x, 2)` idealised over ℚ (round half away from zero). -/
def round2sql (x : ℚ) : ℚ :=
  (rha (100 * x) : ℚ) / 100

/-- A calendar date, as produced by `pd.to_datetime` on the ITBI date strings
(the time component is always midnight and is not carried). -/
structure Date where
  year : ℤ
  month : ℕ
  day : ℕ
deriving DecidableEq, Repr

/-- One cell of a pandas dataframe.  `null` stands for a missing value
(`NaN`/`NaT`); `r` is a finite float (idealised as ℚ); `inf` the two float
infinities produced by division by zero; `i` an int64 value; `b` a bool;
`s` a Python string; `d` a datetime. -/
inductive Cell where
  | null : Cell
  | s (v : String) : Cell
  | r (v : ℚ) : Cell
  | inf (pos : Bool) : Cell
  | i (v : ℤ) : Cell
  | b (v : Bool) : Cell
  | d (v : Date) : Cell
deriving DecidableEq, Repr

/-- A pandas/numpy float value: finite, NaN, or a signed infinity. -/
inductive PFloat where
  | fin (q : ℚ) : PFloat
  | nan : PFloat
  | inf (pos : Bool) : PFloat
deriving DecidableEq, Repr

/-- Two-digit zero padding for date components. -/
def pad2 (n : ℕ) : String :=
  if n < 10 then "0" ++ toString n else toString n

/-- Python `str` of a Timestamp, e.g. `2023-06-15 00:00:00`. -/
def dateRepr (dt : Date) : String :=
  toString dt.year ++ "-" ++ pad2 dt.month ++ "-" ++ pad2 dt.day ++ " 00:00:00"

/-- Python `str` of a float, for floats whose exact value has a terminating
decimal expansion (the only floats the raw loader ever stringifies; the
shortest-roundtrip printing of arbitrary binary floats is outside this
idealisation).  Integral values print with a trailing `.0`. -/
def pyFloatRepr (q : ℚ) : String :=
  if q.den = 1 then toString q.num ++ ".0"
  else
    match (List.range 30).find? (fun k => (q * (10 : ℚ) ^ k).den = 1) with
    | some k =>
      let m := (q * (10 : ℚ) ^ k).num
      let sgn := if m < 0 then "-" else ""
      let digits := toString m.natAbs
      let padded :=
        if digits.length ≤ k then String.mk (List.replicate (k + 1 - digits.length) '0') ++ digits
        else digits
      let cut := padded.length - k
      sgn ++ String.mk (padded.data.take cut) ++ "." ++ String.mk (padded.data.drop cut)
    | none => toString q.num ++ "/" ++ toString q.den

/-- Python `str` applied to a cell value; in particular a missing value
(`NaN`) prints as the literal text `nan`. -/
def pyStr : Cell → String
  | .null => "nan"
  | .s v => v
  | .r v => pyFloatRepr v
  | .inf p => if p then "inf" else "-inf"
  | .i v => toString v
  | .b v => if v then "True" else "False"
  | .d v => dateRepr v

/-- A named dataframe column. -/
structure Col where
  name : String
  cells : List Cell
deriving DecidableEq, Repr

/-- A dataframe, column-major, columns in display order.  Column names are
assumed unique, as they are throughout the pipeline. -/
abbrev Frame := List Col

/-- The column of the frame with the given name (pandas `df[n]`). -/
def colOf (f : Frame) (n : String) : Option Col :=
  f.find? fun c => c.name = n

/-- The cells of the column with the given name, when present. -/
def getCol (f : Frame) (n : String) : Option (List Cell) :=
  (colOf f n).map Col.cells

/-- Assignment `df[n] = cells`: replaces the column when present, otherwise
appends it on the right, as pandas does. -/
def setCol (f : Frame) (n : String) (cs : List Cell) : Frame :=
  if f.any (fun c => c.name = n) then
    f.map fun c => if c.name = n then ⟨n, cs⟩ else c
  else f ++ [⟨n, cs⟩]

/-- Number of rows of a (rectangular) frame. -/
def nRows (f : Frame) : ℕ :=
  match f with
  | [] => 0
  | c :: _ => c.cells.length

/-- Rectangularity: every column has the same number of cells. -/
def Rect (f : Frame) : Prop :=
  ∀ c ∈ f, c.cells.length = nRows f

/-- Latin-1 code of a character: fails (as Python `str.encode('latin1')`
does with `UnicodeEncodeError`) on code points above 255. -/
def latin1Byte (c : Char) : Option ℕ :=
  if c.toNat < 256 then some c.toNat else none

/-- Whether a byte is a UTF-8 continuation byte. -/
def utf8Cont (b : ℕ) : Bool :=
  128 ≤ b ∧ b < 192

/-- Strict UTF-8 decoding of a byte list, rejecting truncated sequences,
overlong encodings, surrogates and out-of-range code points, as Python
`bytes.decode('utf-8')` does. -/
def utf8Decode : List ℕ → Option (List Char)
  | [] => some []
  | b :: bs =>
    if b < 128 then (utf8Decode bs).map fun r => Char.ofNat b :: r
    else if b < 192 then none
    else if b < 224 then
      match bs with
      | b1 :: bs1 =>
        if utf8Cont b1 then
          let cp := (b - 192) * 64 + (b1 - 128)
          if 128 ≤ cp then (utf8Decode bs1).map fun r => Char.ofNat cp :: r else none
        else none
      | [] => none
    else if b < 240 then
      match bs with
      | b1 :: b2 :: bs2 =>
        if utf8Cont b1 ∧ utf8Cont b2 then
          let cp := (b - 224) * 4096 + (b1 - 128) * 64 + (b2 - 128)
          if 2048 ≤ cp ∧ ¬(55296 ≤ cp ∧ cp ≤ 57343) then
            (utf8Decode bs2).map fun r => Char.ofNat cp :: r
          else none
        else none
      | _ => none
    else if b < 248 then
      match bs with
      | b1 :: b2 :: b3 :: bs3 =>
        if utf8Cont b1 ∧ utf8Cont b2 ∧ utf8Cont b3 then
          let cp := (b - 240) * 262144 + (b1 - 128) * 4096 + (b2 - 128) * 64 + (b3 - 128)
          if 65536 ≤ cp ∧ cp ≤ 1114111 then
            (utf8Decode bs3).map fun r => Char.ofNat cp :: r
          else none
        else none
      | _ => none
    else none

/-- `fix_encoding` (etl/transform.py): re-interpret the text as Latin-1 bytes
and decode them as UTF-8; on either failure return the text unchanged. -/
def fix_encoding (s : String) : String :=
  match s.data.mapM latin1Byte with
  | none => s
  | some bytes =>
    match utf8Decode bytes with
    | none => s
    | some cs => ⟨cs⟩

/-- `convert_currency_format` (etl/transform.py): a missing value is
returned unchanged; any other value is stringified and every comma is
replaced by a period.  Note that periods (thousands separators) are NOT
removed. -/
def convert_currency_format : Cell → Cell
  | .null => .null
  | c => .s (replaceCharStr ',' '.' (pyStr c))

/-- One cell of pandas `astype(float)`: missing stays missing, strings go
through Python `float` (with its `nan`/`inf` literals), numbers are kept,
dates fail. -/
def astypeFloatCell : Cell → Option Cell
  | .null => some .null
  | .s v =>
    if v = "nan" then some .null
    else if v = "inf" then some (.inf true)
    else if v = "-inf" then some (.inf false)
    else (pyFloatQ v).map .r
  | .r q => some (.r q)
  | .inf p => some (.inf p)
  | .i n => some (.r n)
  | .b bv => some (.r (if bv then 1 else 0))
  | .d _ => none

/-- Column-level `astype(float)`: raises (returns `none`) when any cell
fails to convert. -/
def astypeFloat (cells : List Cell) : Option (List Cell) :=
  cells.mapM astypeFloatCell

/-- Parse an ISO `YYYY-MM-DD` date string (the format of the ITBI
`data_transacao` field); other `pd.to_datetime` formats are not modelled. -/
def parseDate (s : String) : Option Date :=
  let y := spanDigits s.data
  match y.2 with
  | '-' :: r1 =>
    let m := spanDigits r1
    match m.2 with
    | '-' :: r2 =>
      let dd := spanDigits r2
      if y.1.length = 4 ∧ m.1.length = 2 ∧ dd.1.length = 2 ∧ dd.2 = [] ∧
          1 ≤ digitsToNat m.1 ∧ digitsToNat m.1 ≤ 12 ∧
          1 ≤ digitsToNat dd.1 ∧ digitsToNat dd.1 ≤ 31 then
        some ⟨digitsToNat y.1, digitsToNat m.1, digitsToNat dd.1⟩
      else none
    | _ => none
  | _ => none

/-- One cell of `pd.to_datetime` over a column: missing becomes `NaT`,
strings are parsed, datetimes pass through, anything else raises. -/
def toDatetimeCell : Cell → Option Cell
  | .null => some .null
  | .s v => (parseDate v).map .d
  | .d dt => some (.d dt)
  | _ => none

/-- Column-level `pd.to_datetime`, raising if any cell fails. -/
def toDatetimeCol (cells : List Cell) : Option (List Cell) :=
  cells.mapM toDatetimeCell

/-- `clean_column_names` (etl/transform.py): rename `sfh` to
`valores_financiados_sfh`; when a `cidade` column is present, drop the
redundant `cidade`/`uf` pair. -/
def clean_column_names (f : Frame) : Frame :=
  let f1 := f.map fun c =>
    if c.name = "sfh" then ⟨"valores_financiados_sfh", c.cells⟩ else c
  if f1.any (fun c => c.name = "cidade") then
    f1.filter fun c => c.name ≠ "cidade" ∧ c.name ≠ "uf"
  else f1

/-- The fill applied to the `complemento` column: missing values become the
fixed placeholder, everything else is untouched. -/
def fillComplemento : Cell → Cell
  | .null => .s "Sem complemento"
  | c => c

/-- `handle_missing_values` (etl/transform.py, and the null-handling block of
projeto_simples.py): `fillna('Sem complemento')` on the `complemento` column
only; all other columns pass through untouched (nulls elsewhere are merely
counted for a report). -/
def handle_missing_values (f : Frame) : Frame :=
  f.map fun c =>
    if c.name = "complemento" then ⟨c.name, c.cells.map fillComplemento⟩ else c

/-- The numeric columns excluded from the text-encoding repair. -/
def excludeColumns : List String :=
  ["valores_financiados_sfh", "valor_avaliacao", "area_terreno",
   "area_construida", "fracao_ideal"]

/-- A column has pandas object dtype when it holds string values. -/
def colIsObject (c : Col) : Bool :=
  c.cells.any fun x =>
    match x with
    | .s _ => true
    | _ => false

/-- `fix_encoding` applied through `Series.apply`: only string cells are
touched (the function returns non-`str` values unchanged). -/
def fixEncodingCell : Cell → Cell
  | .s v => .s (fix_encoding v)
  | c => c

/-- `fix_text_encoding` (etl/transform.py): repair encoding on every
object-dtype column not in the numeric exclusion list. -/
def fix_text_encoding (f : Frame) : Frame :=
  f.map fun c =>
    if colIsObject c ∧ c.name ∉ excludeColumns then
      ⟨c.name, c.cells.map fixEncodingCell⟩
    else c

/-- The monetary/numeric columns coerced by `fix_data_types`. -/
def numericColumns : List String :=
  ["valor_avaliacao", "area_terreno", "area_construida",
   "valores_financiados_sfh", "fracao_ideal"]

/-- Coercion of one numeric column in `fix_data_types`: first the currency
conversion is assigned, then `astype(float)` is attempted; when the latter
raises, the exception is swallowed and the column keeps the
comma-converted strings. -/
def fixNumericCol (cells : List Cell) : List Cell :=
  let conv := cells.map convert_currency_format
  match astypeFloat conv with
  | some fl => fl
  | none => conv

/-- `fix_data_types` (etl/transform.py): coerce each numeric column present,
then attempt `pd.to_datetime` on `data_transacao` (keeping the column
unchanged when parsing raises). -/
def fix_data_types (f : Frame) : Frame :=
  let f1 := numericColumns.foldl
    (fun g col =>
      match getCol g col with
      | none => g
      | some cells => setCol g col (fixNumericCol cells)) f
  match getCol f1 "data_transacao" with
  | none => f1
  | some cells =>
    match toDatetimeCol cells with
    | some ds => setCol f1 "data_transacao" ds
    | none => f1

/-- `classificar_valor` (etl/transform.py `create_derived_metrics`, also in
projeto_simples.py): the four value buckets, with an explicit bucket for a
missing value. -/
def classificar_valor (valor : Option ℚ) : String :=
  match valor with
  | none => "Não informado"
  | some v =>
    if v ≤ 200000 then "Baixo (até R$ 200k)"
    else if v ≤ 500000 then "Médio (R$ 200k-500k)"
    else if v ≤ 1000000 then "Alto (R$ 500k-1M)"
    else "Premium (acima R$ 1M)"

/-- View of a cell as a pandas float, for numeric column arithmetic:
missing is NaN, ints and bools coerce, strings and dates raise. -/
def cellToF : Cell → Option PFloat
  | .null => some .nan
  | .r q => some (.fin q)
  | .i n => some (.fin n)
  | .b bv => some (.fin (if bv then 1 else 0))
  | .inf p => some (.inf p)
  | .s _ => none
  | .d _ => none

/-- numpy float division, including the division-by-zero conventions:
`x/0 = ±inf` for `x ≠ 0` and `0/0 = NaN`. -/
def pfDiv : PFloat → PFloat → PFloat
  | .nan, _ => .nan
  | _, .nan => .nan
  | .fin a, .fin bq =>
    if bq = 0 then
      if 0 < a then .inf true else if a < 0 then .inf false else .nan
    else .fin (a / bq)
  | .fin _, .inf _ => .fin 0
  | .inf p, .fin bq => if bq < 0 then .inf (!p) else .inf p
  | .inf _, .inf _ => .nan

/-- `round(x, 2)` on a pandas float: NaN and infinities pass through. -/
def pfRound2 : PFloat → PFloat
  | .nan => .nan
  | .inf p => .inf p
  | .fin q => .fin (round2py q)

/-- Back from the float view to a cell (NaN is the missing value). -/
def pfToCell : PFloat → Cell
  | .nan => .null
  | .fin q => .r q
  | .inf p => .inf p

/-- One cell of `(df.valor_avaliacao / df.area_construida).round(2)`:
`none` models the TypeError raised on non-numeric cells. -/
def vpaCell (v a : Cell) : Option Cell :=
  match cellToF v, cellToF a with
  | some x, some y => some (pfToCell (pfRound2 (pfDiv x y)))
  | _, _ => none

/-- `Series.dt.year` on one cell of a datetime column. -/
def dtYearCell : Cell → Option Cell
  | .d dt => some (.i dt.year)
  | .null => some .null
  | _ => none

/-- `Series.dt.month` on one cell of a datetime column. -/
def dtMonthCell : Cell → Option Cell
  | .d dt => some (.i dt.month)
  | .null => some .null
  | _ => none

/-- `Series.dt.quarter` on one cell of a datetime column. -/
def dtQuarterCell : Cell → Option Cell
  | .d dt => some (.i ((dt.month + 2) / 3))
  | .null => some .null
  | _ => none

/-- Elementwise subtraction of two numeric cells (int minus int stays int,
NaN propagates, non-numeric raises). -/
def cellSub (x y : Cell) : Option Cell
  :=
  match x, y with
  | .i a, .i bv => some (.i (a - bv))
  | .null, _ => some .null
  | _, .null => some .null
  | .i a, .r bq => some (.r (a - bq))
  | .r a, .i bv => some (.r (a - bv))
  | .r a, .r bq => some (.r (a - bq))
  | _, _ => none

/-- `classificar_valor` through `Series.apply`: a string cell raises a
TypeError inside the comparison, infinities compare as in Python. -/
def classificarCell : Cell → Option Cell
  | .null => some (.s (classificar_valor none))
  | .r q => some (.s (classificar_valor (some q)))
  | .i n => some (.s (classificar_valor (some n)))
  | .inf p => some (.s (if p then "Premium (acima R$ 1M)" else "Baixo (até R$ 200k)"))
  | _ => none

/-- One cell of `df.valores_financiados_sfh > 0`: pandas compares NaN as
False; a string cell raises. -/
def gtZeroCell : Cell → Option Cell
  | .null => some (.b false)
  | .r q => some (.b (0 < q))
  | .i n => some (.b (0 < n))
  | .inf p => some (.b p)
  | .b bv => some (.b bv)
  | _ => none

/-- `create_derived_metrics` (etl/transform.py): each derived column is
computed inside its own try/except — a failing step leaves the frame as it
was.  The steps, in source order: `valor_por_m2`, `idade_imovel`,
`faixa_valor`, `tem_financiamento`, then the three temporal components. -/
def create_derived_metrics (f : Frame) : Frame :=
  let f1 :=
    match getCol f "valor_avaliacao", getCol f "area_construida" with
    | some v, some a =>
      match (List.zipWith vpaCell v a).mapM id with
      | some res => setCol f "valor_por_m2" res
      | none => f
    | _, _ => f
  let f2 :=
    match getCol f1 "data_transacao", getCol f1 "ano_construcao" with
    | some dts, some anos =>
      match dts.mapM dtYearCell with
      | some ys =>
        match (List.zipWith cellSub ys anos).mapM id with
        | some res => setCol f1 "idade_imovel" res
        | none => f1
      | none => f1
    | _, _ => f1
  let f3 :=
    match getCol f2 "valor_avaliacao" with
    | some v =>
      match v.mapM classificarCell with
      | some res => setCol f2 "faixa_valor" res
      | none => f2
    | none => f2
  let f4 :=
    match getCol f3 "valores_financiados_sfh" with
    | some v =>
      match v.mapM gtZeroCell with
      | some res => setCol f3 "tem_financiamento" res
      | none => f3
    | none => f3
  match getCol f4 "data_transacao" with
  | none => f4
  | some dts =>
    match dts.mapM dtMonthCell, dts.mapM dtQuarterCell, dts.mapM dtYearCell with
    | some ms, some qs, some ys =>
      setCol (setCol (setCol f4 "mes_transacao" ms) "trimestre" qs) "ano_transacao" ys
    | _, _, _ => f4

/-- `transform_dataset` (etl/transform.py): the full in-process transform
pipeline for one year's frame. -/
def transform_dataset (f : Frame) : Frame :=
  create_derived_metrics (fix_data_types (fix_text_encoding
    (handle_missing_values (clean_column_names f))))

/-- The `faixa_valor` CASE expression of `create_derived_metrics_in_db`
(elt/transform_db.py).  The CASE has no branch for NULL; it is only ever
evaluated on the non-null `valor_avaliacao` of `itbi_transformed`. -/
def sqlFaixaValor (v : ℚ) : String :=
  if v ≤ 200000 then "Baixo (até R$ 200k)"
  else if v ≤ 500000 then "Médio (R$ 200k-500k)"
  else if v ≤ 1000000 then "Alto (R$ 500k-1M)"
  else "Premium (acima R$ 1M)"

/-- The in-database numeric coercion
`CAST(REPLACE(REPLACE(v, '.', ''), ',', '.') AS REAL)`
of `transform_data_types_in_db` (elt/transform_db.py): all periods are
removed, then the decimal comma becomes a period, then SQLite casts. -/
def coerceValorSql (s : String) : ℚ :=
  castReal (replaceCharStr ',' '.' (removeCharStr '.' s))

/-- The in-process numeric coercion of `fix_data_types` on one string:
`convert_currency_format` (comma to period, periods untouched) followed by
Python `float`; `none` when `float` raises. -/
def pyCoerceValor (s : String) : Option ℚ :=
  pyFloatQ (replaceCharStr ',' '.' s)

/-- A row of `itbi_raw` as stored: all data columns are SQL TEXT (possibly
NULL), with the load metadata columns kept verbatim.  Only the columns the
claims touch are named; the remaining data columns sit in `other`. -/
structure RawRow where
  valor_avaliacao : Option String
  bairro : Option String
  data_transacao : Option String
  other : List (Option String)
  source_year : String
  extraction_timestamp : String
  pipeline_type : String
deriving DecidableEq, Repr

/-- An extracted dataframe row arriving at `load_raw_dataset`, before the
string conversion: data cells plus the metadata added by the extractor. -/
structure SrcRow where
  valor_avaliacao : Cell
  bairro : Cell
  data_transacao : Cell
  other : List Cell
  source_year : String
  extraction_timestamp : String
  pipeline_type : String
deriving DecidableEq, Repr

/-- The per-row effect of `load_raw_dataset`'s `astype(str)` loop: every
column except `source_year`, `extraction_timestamp` and `pipeline_type` is
converted to its Python string representation, so no stored data cell is
ever SQL NULL. -/
def stringifyRow (r : SrcRow) : RawRow :=
  { valor_avaliacao := some (pyStr r.valor_avaliacao)
    bairro := some (pyStr r.bairro)
    data_transacao := some (pyStr r.data_transacao)
    other := r.other.map fun c => some (pyStr c)
    source_year := r.source_year
    extraction_timestamp := r.extraction_timestamp
    pipeline_type := r.pipeline_type }

/-- The natural deduplication key of `itbi_raw`
(`UNIQUE (valor_avaliacao, bairro, data_transacao, source_year)`). -/
def rawKey (r : RawRow) : Option String × Option String × Option String × String :=
  (r.valor_avaliacao, r.bairro, r.data_transacao, r.source_year)

/-- `load_raw_dataset` (elt/load_raw.py): delete the year's existing raw
rows, stringify every data cell of the incoming frame and append the rows.
`none` models the IntegrityError raised when the inserted rows would
violate the unique constraint. -/
def load_raw_dataset (df : List SrcRow) (year : String) (raw : List RawRow) :
    Option (List RawRow) :=
  let remaining := raw.filter fun r => r.source_year ≠ year
  let newRows := df.map stringifyRow
  if ((remaining ++ newRows).map rawKey).Nodup then some (remaining ++ newRows)
  else none

/-- The `valor_avaliacao` filter of the `INSERT ... SELECT` in
`transform_data_types_in_db`:
`valor_avaliacao IS NOT NULL AND valor_avaliacao != '' AND valor_avaliacao != 'nan'`. -/
def valorPasses : Option String → Bool
  | none => false
  | some s => s ≠ "" ∧ s ≠ "nan"

/-- The missing-value test of the `v_data_quality` view
(`create_raw_data_views`, elt/load_raw.py):
`valor_avaliacao IS NULL OR valor_avaliacao = '' OR valor_avaliacao = 'nan'`. -/
def missingValor : Option String → Bool
  | none => true
  | some s => s = "" ∨ s = "nan"

/-- A row of `itbi_transformed` restricted to the fields the raw-to-typed
step determines (`valor_avaliacao` is REAL and never NULL for inserted
rows, since the CAST of a non-null text is total). -/
structure TRow where
  valor_avaliacao : ℚ
  source_year : String
deriving DecidableEq, Repr

/-- The database state seen by the in-database transform. -/
structure Db where
  raw : List RawRow
  transformed : List TRow
deriving DecidableEq, Repr

/-- `transform_data_types_in_db` (elt/transform_db.py): delete the year's
rows of `itbi_transformed`, then insert one coerced row per raw row of
that year whose `valor_avaliacao` passes the NULL/''/'nan' filter.  The
statements read `itbi_raw` but never write it. -/
def transform_data_types_in_db (db : Db) (year : String) : Db :=
  let kept := db.transformed.filter fun t => t.source_year ≠ year
  let ins :=
    (db.raw.filter fun r => r.source_year = year ∧ valorPasses r.valor_avaliacao = true).map
      fun r => TRow.mk (coerceValorSql (r.valor_avaliacao.getD "")) r.source_year
  Db.mk db.raw (kept ++ ins)

/-- A row of `itbi_transformed` restricted to the fields of the
`valor_por_m2` UPDATE of `create_derived_metrics_in_db`. -/
structure TRowM where
  valor_avaliacao : ℚ
  area_construida : Option ℚ
  valor_por_m2 : Option ℚ
  source_year : String
deriving DecidableEq, Repr

/-- The row-level semantics of
`UPDATE itbi_transformed SET valor_por_m2 = ROUND(valor_avaliacao / NULLIF(area_construida, 0), 2)
 WHERE source_year = ? AND area_construida > 0`
(elt/transform_db.py): rows with NULL or non-positive area are not touched,
so their `valor_por_m2` keeps its initial NULL. -/
def update_valor_m2 (year : String) (r : TRowM) : TRowM :=
  match r.area_construida with
  | some a =>
    if r.source_year = year ∧ 0 < a then
      { r with valor_por_m2 := some (round2sql (r.valor_avaliacao / a)) }
    else r
  | none => r

/-- Concatenation of the image of `g` over a list (`List.flatMap`, kept
local so its arithmetic lemmas stay elementary). -/
def joinMap (g : α → List β) : List α → List β
  | [] => []
  | a :: l => g a ++ joinMap g l

/-- Deduplication keeping first occurrences, the column-union order of
`pd.concat(..., sort=False)`. -/
def dedupFirst (l : List String) : List String :=
  l.foldl (fun acc x => if x ∈ acc then acc else acc ++ [x]) []

/-- `consolidate_datasets` (etl/load.py):
`pd.concat(list(datasets.values()), ignore_index=True, sort=False)` —
rows of all frames in order; the column set is the union of all frames'
columns in order of first appearance; a frame lacking a column contributes
null cells for its rows. -/
def consolidate_datasets (fs : List Frame) : Frame :=
  let names := dedupFirst (joinMap (fun f => f.map Col.name) fs)
  names.map fun n =>
    ⟨n, joinMap (fun f =>
        match colOf f n with
        | some c => c.cells
        | none => List.replicate (nRows f) Cell.null) fs⟩

/-- The body of the per-year loop of `extract_itbi_data` (etl/extract.py):
fetch the CSV (the HTTP+parse step is the external collaborator `fetch`),
add the three metadata columns, then validate non-emptiness and the
20-column minimum; any raised error is the year's failure. -/
def processYearEtl (fetch : String → Except String Frame) (year url : String) :
    Except String Frame :=
  match fetch url with
  | .error e => .error e
  | .ok df0 =>
    let df1 := setCol df0 "source_year" (List.replicate (nRows df0) (Cell.s year))
    let df2 := setCol df1 "extraction_date" (List.replicate (nRows df1) Cell.null)
    let df := setCol df2 "source_url" (List.replicate (nRows df2) (Cell.s url))
    if nRows df = 0 then .error "empty"
    else if df.length < 20 then .error "few columns"
    else .ok df

/-- `extract_itbi_data` (etl/extract.py): iterate over the year/URL pairs;
a failing year is logged and skipped with `continue`, a succeeding year's
frame is added to the result dictionary (insertion order). -/
def extract_itbi_data (fetch : String → Except String Frame)
    (urls : List (String × String)) : List (String × Frame) :=
  urls.foldl
    (fun acc p =>
      match processYearEtl fetch p.1 p.2 with
      | .ok df => acc ++ [(p.1, df)]
      | .error _ => acc) []

/-- The body of the per-year loop of `extract_itbi_data_elt`
(elt/extract.py): fetch, add the three ELT metadata columns, and validate
only non-emptiness. -/
def processYearElt (fetch : String → Except String Frame) (year url : String) :
    Except String Frame :=
  match fetch url with
  | .error e => .error e
  | .ok df0 =>
    let df1 := setCol df0 "source_year" (List.replicate (nRows df0) (Cell.s year))
    let df2 := setCol df1 "extraction_timestamp" (List.replicate (nRows df1) Cell.null)
    let df := setCol df2 "pipeline_type" (List.replicate (nRows df2) (Cell.s "ELT"))
    if nRows df = 0 then .error "empty" else .ok df

/-- `extract_itbi_data_elt` (elt/extract.py): same skip-and-continue loop
as the ETL variant. -/
def extract_itbi_data_elt (fetch : String → Except String Frame)
    (urls : List (String × String)) : List (String × Frame) :=
  urls.foldl
    (fun acc p =>
      match processYearElt fetch p.1 p.2 with
      | .ok df => acc ++ [(p.1, df)]
      | .error _ => acc) []

/-- The first value band of `classificar_valor` and of the `faixa_valor`
CASE: at most 200 000. -/
def bandLow (v : ℚ) : Prop := v ≤ 200000

/-- The second value band: above 200 000 and at most 500 000. -/
def bandMid (v : ℚ) : Prop := 200000 < v ∧ v ≤ 500000

/-- The third value band: above 500 000 and at most 1 000 000. -/
def bandHigh (v : ℚ) : Prop := 500000 < v ∧ v ≤ 1000000

/-- The fourth value band: above 1 000 000. -/
def bandPremium (v : ℚ) : Prop := 1000000 < v

/-- The single example row of the spec (§8), with the repository's column
names: `value` is `valor_avaliacao`, `built_area` is `area_construida`,
`construction_year` is `ano_construcao`, `transaction_date` is
`data_transacao` and `financed_amount` is the `sfh` column. -/
def c3input : Frame :=
  [⟨"valor_avaliacao", [Cell.s "150.000,00"]⟩,
   ⟨"area_construida", [Cell.s "50,0"]⟩,
   ⟨"ano_construcao", [Cell.i 2010]⟩,
   ⟨"data_transacao", [Cell.s "2023-06-15"]⟩,
   ⟨"sfh", [Cell.s "0,00"]⟩]

/-- A raw row whose assessed value is the text `0,00`: it passes the
NULL/''/'nan' filter of the in-database transform. -/
def rawZero : RawRow :=
  ⟨some "0,00", some "Boa Viagem", some "2023-01-15", [], "2023", "t0", "ELT"⟩

/-- A raw row whose assessed value is the empty string: it fails the filter
of the in-database transform. -/
def rawEmpty : RawRow :=
  ⟨some "", some "Pina", some "2023-02-20", [], "2023", "t0", "ELT"⟩

/-- A two-row raw database for exercising the in-database transform. -/
def dbC5 : Db := ⟨[rawZero, rawEmpty], []⟩

/-- A one-row extracted dataset tagged with year 2023, for exercising the
raw loader. -/
def src2023 : SrcRow :=
  ⟨Cell.s "100.000,50", Cell.s "Boa Viagem", Cell.s "2023-01-15",
   [Cell.null], "2023", "t1", "ELT"⟩

/-- A pre-existing raw row of another year, which the loader must keep. -/
def rawOther : RawRow :=
  ⟨some "1", some "Pina", some "2022-05-05", [], "2022", "t0", "ELT"⟩

/-- A two-column, two-row frame for exercising consolidation. -/
def frameA : Frame :=
  [⟨"a", [Cell.i 1, Cell.i 2]⟩, ⟨"b", [Cell.s "x", Cell.s "y"]⟩]

/-- A two-column, one-row frame whose column set overlaps `frameA` in `a`
only. -/
def frameB : Frame :=
  [⟨"a", [Cell.i 3]⟩, ⟨"c", [Cell.b true]⟩]

/-- A two-column frame with a null in each column, for exercising the
null-handling step. -/
def frameC9 : Frame :=
  [⟨"complemento", [Cell.null, Cell.s "Apto 101"]⟩, ⟨"bairro", [Cell.null, Cell.s "Pina"]⟩]

/-- An extracted row whose assessed value is missing, for exercising the
raw loader's string conversion. -/
def srcNullValor : SrcRow :=
  ⟨Cell.null, Cell.s "Pina", Cell.s "2023-03-01", [], "2023", "t1", "ELT"⟩

/-- A digit character differs from any non-digit character. -/
theorem ne_of_isDigit {c : Char} (x : Char) (h : c.isDigit = true)
    (hx : x.isDigit = false) : c ≠ x := by
  intro e
  subst e
  rw [h] at hx
  cases hx

/-- `spanDigits` consumes exactly a leading all-digit block when the rest of
the input does not begin with a digit. -/
theorem spanDigits_append (ds r : List Char) (h : ∀ c ∈ ds, c.isDigit = true)
    (hr : ∀ c, r.head? = some c → c.isDigit = false) :
    spanDigits (ds ++ r) = (ds, r) := by
  induction ds with
  | nil =>
    simp only [List.nil_append]
    cases r with
    | nil => rfl
    | cons c cs =>
      have hc := hr c rfl
      simp [spanDigits, hc]
  | cons c ds ih =>
    have hc := h c (List.mem_cons_self c ds)
    have ih2 := ih fun x hx => h x (List.mem_cons_of_mem c hx)
    simp [spanDigits, hc, ih2]

/-- The digit fold started from `i` splits into `i` shifted plus the value
of the digits. -/
theorem foldl_digit_shift (l : List Char) (i : ℕ) :
    l.foldl (fun a c => 10 * a + (c.toNat - 48)) i =
      i * 10 ^ l.length + digitsToNat l := by
  induction l generalizing i with
  | nil => simp [digitsToNat]
  | cons c l ih =>
    simp only [List.foldl_cons, List.length_cons, digitsToNat] at ih ⊢
    rw [ih (10 * i + (c.toNat - 48)), ih (10 * 0 + (c.toNat - 48))]
    ring

/-- Base-10 value of a concatenation of digit blocks. -/
theorem digitsToNat_append (a b : List Char) :
    digitsToNat (a ++ b) = digitsToNat a * 10 ^ b.length + digitsToNat b := by
  simp only [digitsToNat, List.foldl_append]
  exact foldl_digit_shift b _

/-- Removing a character that does not occur leaves the list unchanged. -/
theorem removeChar_of_not_mem (ds : List Char) (x : Char) (h : ∀ c ∈ ds, c ≠ x) :
    removeChar x ds = ds := by
  simp only [removeChar]
  rw [List.filter_eq_self]
  intro a ha
  simpa using h a ha

/-- `removeChar` distributes over append. -/
theorem removeChar_append (x : Char) (a b : List Char) :
    removeChar x (a ++ b) = removeChar x a ++ removeChar x b := by
  simp [removeChar, List.filter_append]

/-- `removeChar` drops a leading occurrence of the removed character. -/
theorem removeChar_cons_self (x : Char) (l : List Char) :
    removeChar x (x :: l) = removeChar x l := by
  simp [removeChar, List.filter_cons]

/-- Replacing a character that does not occur leaves the list unchanged. -/
theorem replaceChar_of_not_mem (ds : List Char) (a b : Char) (h : ∀ c ∈ ds, c ≠ a) :
    replaceChar a b ds = ds := by
  induction ds with
  | nil => rfl
  | cons c l ih =>
    have hc := h c (List.mem_cons_self c l)
    simp only [replaceChar, List.map_cons] at ih ⊢
    simp [hc, ih fun d hd => h d (List.mem_cons_of_mem c hd)]

/-- `replaceChar` distributes over append. -/
theorem replaceChar_append (a b : Char) (l1 l2 : List Char) :
    replaceChar a b (l1 ++ l2) = replaceChar a b l1 ++ replaceChar a b l2 := by
  simp [replaceChar]

/-- `replaceChar` rewrites a leading occurrence of the replaced character. -/
theorem replaceChar_cons_self (a b : Char) (l : List Char) :
    replaceChar a b (a :: l) = b :: replaceChar a b l := by
  simp [replaceChar]

/-- Leading spaces are not dropped from a digit-headed list. -/
theorem dropSpaces_digit (c : Char) (l : List Char) (h : c.isDigit = true) :
    (c :: l).dropWhile (fun x => x = ' ') = c :: l := by
  have hc : c ≠ ' ' := ne_of_isDigit ' ' h (by decide)
  simp [List.dropWhile_cons, hc]

/-- A digit-headed list carries no sign. -/
theorem stripSign_digit (c : Char) (l : List Char) (h : c.isDigit = true) :
    stripSign (c :: l) = (1, c :: l) := by
  have h1 : c ≠ '-' := ne_of_isDigit '-' h (by decide)
  have h2 : c ≠ '+' := ne_of_isDigit '+' h (by decide)
  simp [stripSign, h1, h2]

/-- SQLite CAST of an unsigned literal `d1 . d3` with all-digit blocks. -/
theorem castRealAux_digits (d1 d3 : List Char) (h1 : ∀ c ∈ d1, c.isDigit = true)
    (h3 : ∀ c ∈ d3, c.isDigit = true) (hne : d1 ≠ []) :
    castRealAux (d1 ++ '.' :: d3) =
      (digitsToNat d1 : ℚ) + (digitsToNat d3 : ℚ) / (10 : ℚ) ^ d3.length := by
  obtain ⟨c, d1t, rfl⟩ := List.exists_cons_of_ne_nil hne
  have hc := h1 c (List.mem_cons_self c d1t)
  have hspan : spanDigits ((c :: d1t) ++ '.' :: d3) = (c :: d1t, '.' :: d3) :=
    spanDigits_append _ _ h1 (by intro x hx; cases hx; decide)
  have hspan3 : spanDigits (d3 ++ []) = (d3, []) :=
    spanDigits_append _ _ h3 (by intro x hx; cases hx)
  rw [List.append_nil] at hspan3
  rw [List.cons_append] at hspan ⊢
  simp only [castRealAux, dropSpaces_digit _ _ hc, stripSign_digit _ _ hc, hspan,
    fracDigits, hspan3, one_mul]

/-- Python float accepts an unsigned literal `d1 . d3` with all-digit
blocks, `d1` nonempty. -/
theorem pyFloatAux_digits (d1 d3 : List Char) (h1 : ∀ c ∈ d1, c.isDigit = true)
    (h3 : ∀ c ∈ d3, c.isDigit = true) (hne : d1 ≠ []) :
    pyFloatAux (d1 ++ '.' :: d3) =
      some ((digitsToNat d1 : ℚ) + (digitsToNat d3 : ℚ) / (10 : ℚ) ^ d3.length) := by
  obtain ⟨c, d1t, rfl⟩ := List.exists_cons_of_ne_nil hne
  have hc := h1 c (List.mem_cons_self c d1t)
  have hspan : spanDigits ((c :: d1t) ++ '.' :: d3) = (c :: d1t, '.' :: d3) :=
    spanDigits_append _ _ h1 (by intro x hx; cases hx; decide)
  have hspan3 : spanDigits (d3 ++ []) = (d3, []) :=
    spanDigits_append _ _ h3 (by intro x hx; cases hx)
  rw [List.append_nil] at hspan3
  rw [List.cons_append] at hspan ⊢
  simp [pyFloatAux, stripSign_digit _ _ hc, hspan, pyFloatTail, hspan3, one_mul]

/-- Python float rejects a literal with two periods. -/
theorem pyFloatAux_two_dots (d1 d2 d3 : List Char) (h1 : ∀ c ∈ d1, c.isDigit = true)
    (h2 : ∀ c ∈ d2, c.isDigit = true) (hne : d1 ≠ []) :
    pyFloatAux (d1 ++ '.' :: (d2 ++ '.' :: d3)) = none := by
  obtain ⟨c, d1t, rfl⟩ := List.exists_cons_of_ne_nil hne
  have hc := h1 c (List.mem_cons_self c d1t)
  have hspan : spanDigits ((c :: d1t) ++ '.' :: (d2 ++ '.' :: d3)) =
      (c :: d1t, '.' :: (d2 ++ '.' :: d3)) :=
    spanDigits_append _ _ h1 (by intro x hx; cases hx; decide)
  have hspan2 : spanDigits (d2 ++ '.' :: d3) = (d2, '.' :: d3) :=
    spanDigits_append _ _ h2 (by intro x hx; cases hx; decide)
  rw [List.cons_append] at hspan ⊢
  simp [pyFloatAux, stripSign_digit _ _ hc, hspan, pyFloatTail, hspan2]

/-- `replaceChar` keeps a leading character different from the pattern. -/
theorem replaceChar_cons_ne (a b x : Char) (l : List Char) (h : x ≠ a) :
    replaceChar a b (x :: l) = x :: replaceChar a b l := by
  simp [replaceChar, h]

/-- C1 (amended).  For every Brazilian-formatted string `A.BBB,CC` (digit
blocks `A` nonempty, `BBB` of length 3, `CC` of length 2): the in-database
coercion `CAST(REPLACE(REPLACE(v, '.', ''), ',', '.') AS REAL)` yields the
value `ABBB.CC` exactly; the in-process coercion (`convert_currency_format`
followed by `float`) does not strip the thousands separator, so `float`
raises on `A.BBB,CC` and no numeric value is produced; it yields `ABBB.CC`
exactly only for inputs without a thousands separator, such as `ABBB,CC`. -/
theorem C1_currency_coercion (d1 d2 d3 : List Char)
    (h1 : d1 ≠ [] ∧ ∀ c ∈ d1, c.isDigit = true)
    (h2 : d2.length = 3 ∧ ∀ c ∈ d2, c.isDigit = true)
    (h3 : d3.length = 2 ∧ ∀ c ∈ d3, c.isDigit = true) :
    coerceValorSql ⟨d1 ++ '.' :: (d2 ++ ',' :: d3)⟩ =
      (digitsToNat d1 : ℚ) * 1000 + (digitsToNat d2 : ℚ) + (digitsToNat d3 : ℚ) / 100 ∧
    pyCoerceValor ⟨d1 ++ '.' :: (d2 ++ ',' :: d3)⟩ = none ∧
    pyCoerceValor ⟨d1 ++ (d2 ++ ',' :: d3)⟩ =
      some ((digitsToNat d1 : ℚ) * 1000 + (digitsToNat d2 : ℚ) +
        (digitsToNat d3 : ℚ) / 100) := by
  obtain ⟨hne1, hd1⟩ := h1
  obtain ⟨hl2, hd2⟩ := h2
  obtain ⟨hl3, hd3⟩ := h3
  have hd12 : ∀ c ∈ d1 ++ d2, c.isDigit = true := by
    intro c hc
    rcases List.mem_append.1 hc with hx | hx
    · exact hd1 c hx
    · exact hd2 c hx
  have hne12 : d1 ++ d2 ≠ [] := fun e => hne1 (List.append_eq_nil.1 e).1
  have hval : (digitsToNat (d1 ++ d2) : ℚ) =
      (digitsToNat d1 : ℚ) * 1000 + (digitsToNat d2 : ℚ) := by
    have := digitsToNat_append d1 d2
    rw [hl2] at this
    push_cast [this]
    norm_num
  have hnotdot2 : ∀ c ∈ d2 ++ ',' :: d3, c ≠ '.' := by
    intro c hc
    rcases List.mem_append.1 hc with hx | hx
    · exact ne_of_isDigit '.' (hd2 c hx) (by decide)
    · rcases List.mem_cons.1 hx with rfl | hx
      · decide
      · exact ne_of_isDigit '.' (hd3 c hx) (by decide)
  have hrm : removeChar '.' (d1 ++ '.' :: (d2 ++ ',' :: d3)) = d1 ++ (d2 ++ ',' :: d3) := by
    rw [removeChar_append, removeChar_cons_self,
      removeChar_of_not_mem d1 '.' (fun c hc => ne_of_isDigit '.' (hd1 c hc) (by decide)),
      removeChar_of_not_mem _ '.' hnotdot2]
  have hrp : replaceChar ',' '.' (d1 ++ (d2 ++ ',' :: d3)) = (d1 ++ d2) ++ '.' :: d3 := by
    rw [replaceChar_append, replaceChar_append, replaceChar_cons_self,
      replaceChar_of_not_mem d1 ',' '.' (fun c hc => ne_of_isDigit ',' (hd1 c hc) (by decide)),
      replaceChar_of_not_mem d2 ',' '.' (fun c hc => ne_of_isDigit ',' (hd2 c hc) (by decide)),
      replaceChar_of_not_mem d3 ',' '.' (fun c hc => ne_of_isDigit ',' (hd3 c hc) (by decide)),
      List.append_assoc]
  have hrp2 : replaceChar ',' '.' (d1 ++ '.' :: (d2 ++ ',' :: d3)) =
      d1 ++ '.' :: (d2 ++ '.' :: d3) := by
    rw [replaceChar_append, replaceChar_cons_ne ',' '.' '.' _ (by decide),
      replaceChar_append, replaceChar_cons_self,
      replaceChar_of_not_mem d1 ',' '.' (fun c hc => ne_of_isDigit ',' (hd1 c hc) (by decide)),
      replaceChar_of_not_mem d2 ',' '.' (fun c hc => ne_of_isDigit ',' (hd2 c hc) (by decide)),
      replaceChar_of_not_mem d3 ',' '.' (fun c hc => ne_of_isDigit ',' (hd3 c hc) (by decide))]
  refine ⟨?_, ?_, ?_⟩
  · show castRealAux (replaceChar ',' '.' (removeChar '.' (d1 ++ '.' :: (d2 ++ ',' :: d3)))) =
      (digitsToNat d1 : ℚ) * 1000 + (digitsToNat d2 : ℚ) + (digitsToNat d3 : ℚ) / 100
    rw [hrm, hrp, castRealAux_digits _ _ hd12 hd3 hne12, hval, hl3]
    norm_num
  · show pyFloatAux (replaceChar ',' '.' (d1 ++ '.' :: (d2 ++ ',' :: d3))) = none
    rw [hrp2]
    exact pyFloatAux_two_dots d1 d2 d3 hd1 hd2 hne1
  · show pyFloatAux (replaceChar ',' '.' (d1 ++ (d2 ++ ',' :: d3))) =
      some ((digitsToNat d1 : ℚ) * 1000 + (digitsToNat d2 : ℚ) + (digitsToNat d3 : ℚ) / 100)
    rw [hrp, pyFloatAux_digits _ _ hd12 hd3 hne12, hval, hl3]
    norm_num

/-- C1 counterexample to the claim as stated: on the spec's own example
`200.000,50` the in-process coercion replaces only the comma, producing
`200.000.50`, on which Python `float` raises — it does not yield
`200000.50`. -/
theorem C1_counterexample :
    convert_currency_format (Cell.s "200.000,50") = Cell.s "200.000.50" ∧
    pyCoerceValor "200.000,50" = none := by
  constructor
  · rfl
  · decide

/-- C1 witness: the amended theorem applied to the digit blocks of
`200.000,50`. -/
theorem C1_witness :
    coerceValorSql "200.000,50" = 200000 + 50 / 100 ∧
    pyCoerceValor "200.000,50" = none ∧
    pyCoerceValor "200000,50" = some (200000 + 50 / 100) := by
  have h := C1_currency_coercion ['2', '0', '0'] ['0', '0', '0'] ['5', '0']
    ⟨by decide, by decide⟩ ⟨by decide, by decide⟩ ⟨by decide, by decide⟩
  obtain ⟨ha, hb, hc⟩ := h
  have e1 : ("200.000,50" : String) =
      ⟨['2', '0', '0'] ++ '.' :: (['0', '0', '0'] ++ ',' :: ['5', '0'])⟩ := by decide
  have e2 : ("200000,50" : String) =
      ⟨['2', '0', '0'] ++ (['0', '0', '0'] ++ ',' :: ['5', '0'])⟩ := by decide
  have v1 : digitsToNat ['2', '0', '0'] = 200 := by decide
  have v2 : digitsToNat ['0', '0', '0'] = 0 := by decide
  have v3 : digitsToNat ['5', '0'] = 50 := by decide
  rw [v1, v2, v3] at ha hc
  rw [e1, e2]
  refine ⟨?_, hb, ?_⟩
  · rw [ha]
    norm_num
  · rw [hc]
    norm_num

/-- C2: the value buckets follow the four documented thresholds, the null
value gets the explicit bucket in the in-process variant, the in-database
CASE (which has no null branch) agrees with the in-process function on
every non-null value, and the four bands are mutually exclusive and
exhaustive over the positive rationals. -/
theorem C2_value_buckets :
    classificar_valor none = "Não informado" ∧
    (∀ v : ℚ, bandLow v → classificar_valor (some v) = "Baixo (até R$ 200k)") ∧
    (∀ v : ℚ, bandMid v → classificar_valor (some v) = "Médio (R$ 200k-500k)") ∧
    (∀ v : ℚ, bandHigh v → classificar_valor (some v) = "Alto (R$ 500k-1M)") ∧
    (∀ v : ℚ, bandPremium v → classificar_valor (some v) = "Premium (acima R$ 1M)") ∧
    (∀ v : ℚ, classificar_valor (some v) = sqlFaixaValor v) ∧
    (∀ v : ℚ, 0 < v → bandLow v ∨ bandMid v ∨ bandHigh v ∨ bandPremium v) ∧
    (∀ v : ℚ,
      ¬(bandLow v ∧ bandMid v) ∧ ¬(bandLow v ∧ bandHigh v) ∧
      ¬(bandLow v ∧ bandPremium v) ∧ ¬(bandMid v ∧ bandHigh v) ∧
      ¬(bandMid v ∧ bandPremium v) ∧ ¬(bandHigh v ∧ bandPremium v)) := by
  refine ⟨rfl, ?_, ?_, ?_, ?_, ?_, ?_, ?_⟩
  · intro v hv
    unfold bandLow at hv
    simp only [classificar_valor]
    rw [if_pos hv]
  · intro v hv
    obtain ⟨ha, hb⟩ := hv
    simp only [classificar_valor]
    rw [if_neg (by linarith), if_pos hb]
  · intro v hv
    obtain ⟨ha, hb⟩ := hv
    simp only [classificar_valor]
    rw [if_neg (by linarith), if_neg (by linarith), if_pos hb]
  · intro v hv
    unfold bandPremium at hv
    simp only [classificar_valor]
    rw [if_neg (by linarith), if_neg (by linarith), if_neg (by linarith)]
  · intro v
    simp only [classificar_valor, sqlFaixaValor]
  · intro v _
    unfold bandLow bandMid bandHigh bandPremium
    rcases le_or_lt v 200000 with h | h
    · exact Or.inl h
    rcases le_or_lt v 500000 with h2 | h2
    · exact Or.inr (Or.inl ⟨h, h2⟩)
    rcases le_or_lt v 1000000 with h3 | h3
    · exact Or.inr (Or.inr (Or.inl ⟨h2, h3⟩))
    · exact Or.inr (Or.inr (Or.inr h3))
  · intro v
    unfold bandLow bandMid bandHigh bandPremium
    refine ⟨?_, ?_, ?_, ?_, ?_, ?_⟩
    · rintro ⟨ha, hb, -⟩; linarith
    · rintro ⟨ha, hb, -⟩; linarith
    · rintro ⟨ha, hb⟩; linarith
    · rintro ⟨⟨-, ha⟩, hb, -⟩; linarith
    · rintro ⟨⟨-, ha⟩, hb⟩; linarith
    · rintro ⟨⟨-, ha⟩, hb⟩; linarith

/-- C2 witness: the bucket theorem applied at one value in each band and at
a point of the exhaustiveness statement. -/
theorem C2_witness :
    classificar_valor (some 150000) = "Baixo (até R$ 200k)" ∧
    classificar_valor (some 300000) = "Médio (R$ 200k-500k)" ∧
    classificar_valor (some 700000) = "Alto (R$ 500k-1M)" ∧
    classificar_valor (some 2000000) = "Premium (acima R$ 1M)" ∧
    classificar_valor (some 300000) = sqlFaixaValor 300000 ∧
    (bandLow 150000 ∨ bandMid 150000 ∨ bandHigh 150000 ∨ bandPremium 150000) :=
  ⟨C2_value_buckets.2.1 150000 (by norm_num [bandLow]),
   C2_value_buckets.2.2.1 300000 (by norm_num [bandMid]),
   C2_value_buckets.2.2.2.1 700000 (by norm_num [bandHigh]),
   C2_value_buckets.2.2.2.2.1 2000000 (by norm_num [bandPremium]),
   C2_value_buckets.2.2.2.2.2.1 300000,
   C2_value_buckets.2.2.2.2.2.2.1 150000 (by norm_num)⟩

/-- C3 counterexample to the claim as stated: on the spec's example row the
in-process transform leaves `valor_avaliacao` as the unparseable text
`150.000.00` (so it is not the float 150000.0) and creates neither
`valor_por_m2` nor `faixa_valor`. -/
theorem C3_counterexample :
    getCol (transform_dataset c3input) "valor_avaliacao" = some [Cell.s "150.000.00"] ∧
    getCol (transform_dataset c3input) "valor_avaliacao" ≠ some [Cell.r 150000] ∧
    getCol (transform_dataset c3input) "valor_por_m2" = none ∧
    getCol (transform_dataset c3input) "faixa_valor" = none := by
  decide

/-- C3 (amended): the exact output of the in-process transform on the
spec's example row.  `built_area`, `property_age`, `financing_flag`,
`month` and `quarter` come out as documented, but the value column stays
text (the float conversion fails on the thousands separator) and no
`valor_por_m2` or `faixa_valor` column is created. -/
theorem C3_example_row_transform :
    transform_dataset c3input =
      [⟨"valor_avaliacao", [Cell.s "150.000.00"]⟩,
       ⟨"area_construida", [Cell.r 50]⟩,
       ⟨"ano_construcao", [Cell.i 2010]⟩,
       ⟨"data_transacao", [Cell.d ⟨2023, 6, 15⟩]⟩,
       ⟨"valores_financiados_sfh", [Cell.r 0]⟩,
       ⟨"idade_imovel", [Cell.i 13]⟩,
       ⟨"tem_financiamento", [Cell.b false]⟩,
       ⟨"mes_transacao", [Cell.i 6]⟩,
       ⟨"trimestre", [Cell.i 2]⟩,
       ⟨"ano_transacao", [Cell.i 2023]⟩] := by
  with_unfolding_all rfl

/-- Round half to even differs from its argument by at most one half. -/
theorem abs_rhe_sub (x : ℚ) : |(rhe x : ℚ) - x| ≤ 1 / 2 := by
  have h0 : (0 : ℚ) ≤ x - ⌊x⌋ := by
    have h := Int.fract_nonneg x
    unfold Int.fract at h
    exact h
  have h1 : x - ⌊x⌋ < 1 := by
    have h := Int.fract_lt_one x
    unfold Int.fract at h
    exact h
  rw [abs_le]
  unfold rhe Int.fract
  split_ifs with a b c
  · constructor <;> linarith
  · constructor <;> push_cast <;> linarith
  · constructor <;> linarith
  · constructor <;> push_cast <;> linarith

/-- Round half away from zero differs from its argument by at most one
half. -/
theorem abs_rha_sub (x : ℚ) : |(rha x : ℚ) - x| ≤ 1 / 2 := by
  rw [abs_le]
  unfold rha
  split_ifs with a
  · have hle : ((⌊x + 1 / 2⌋ : ℤ) : ℚ) ≤ x + 1 / 2 := Int.floor_le _
    have hlt : x + 1 / 2 - 1 < ((⌊x + 1 / 2⌋ : ℤ) : ℚ) := Int.sub_one_lt_floor _
    constructor <;> linarith
  · have hle : ((⌊-x + 1 / 2⌋ : ℤ) : ℚ) ≤ -x + 1 / 2 := Int.floor_le _
    have hlt : -x + 1 / 2 - 1 < ((⌊-x + 1 / 2⌋ : ℤ) : ℚ) := Int.sub_one_lt_floor _
    constructor <;> push_cast <;> linarith

/-- Multiplying the two-decimal Python rounding of `v / a` back by `a`
recovers `v` within half a hundredth of `a`. -/
theorem round2py_recover (v a : ℚ) (ha : 0 < a) :
    |round2py (v / a) * a - v| ≤ a / 200 := by
  have hne : a ≠ 0 := ne_of_gt ha
  have key : round2py (v / a) * a - v =
      ((rhe (100 * (v / a)) : ℚ) - 100 * (v / a)) * a / 100 := by
    unfold round2py
    field_simp
  rw [key, abs_div, abs_mul, abs_of_pos ha]
  have h100 : |(100 : ℚ)| = 100 := by norm_num
  rw [h100]
  have hb := abs_rhe_sub (100 * (v / a))
  have hstep : |(rhe (100 * (v / a)) : ℚ) - 100 * (v / a)| * a ≤ (1 / 2) * a := by
    exact mul_le_mul_of_nonneg_right hb (le_of_lt ha)
  linarith

/-- Multiplying the two-decimal SQLite rounding of `v / a` back by `a`
recovers `v` within half a hundredth of `a`. -/
theorem round2sql_recover (v a : ℚ) (ha : 0 < a) :
    |round2sql (v / a) * a - v| ≤ a / 200 := by
  have hne : a ≠ 0 := ne_of_gt ha
  have key : round2sql (v / a) * a - v =
      ((rha (100 * (v / a)) : ℚ) - 100 * (v / a)) * a / 100 := by
    unfold round2sql
    field_simp
  rw [key, abs_div, abs_mul, abs_of_pos ha]
  have h100 : |(100 : ℚ)| = 100 := by norm_num
  rw [h100]
  have hb := abs_rha_sub (100 * (v / a))
  have hstep : |(rha (100 * (v / a)) : ℚ) - 100 * (v / a)| * a ≤ (1 / 2) * a := by
    exact mul_le_mul_of_nonneg_right hb (le_of_lt ha)
  linarith

/-- C4 (amended): for built area strictly positive both variants compute
`round(value / built_area, 2)` (each with its own tie rule) and the product
with the area recovers the value within `a/200`; the in-database UPDATE
leaves `valor_por_m2` untouched (hence NULL) for NULL or non-positive
area; the in-process variant propagates a missing value as missing but
produces positive infinity — not null — when the area is the float 0.0. -/
theorem C4_value_per_area :
    (∀ v a : ℚ, 0 < a →
      vpaCell (Cell.r v) (Cell.r a) = some (Cell.r (round2py (v / a))) ∧
      |round2py (v / a) * a - v| ≤ a / 200) ∧
    (∀ (year : String) (r : TRowM) (a : ℚ),
      r.area_construida = some a → 0 < a → r.source_year = year →
      (update_valor_m2 year r).valor_por_m2 = some (round2sql (r.valor_avaliacao / a)) ∧
      |round2sql (r.valor_avaliacao / a) * a - r.valor_avaliacao| ≤ a / 200) ∧
    (∀ (year : String) (r : TRowM),
      (r.area_construida = none ∨ ∃ a : ℚ, a ≤ 0 ∧ r.area_construida = some a) →
      update_valor_m2 year r = r) ∧
    (∀ v : ℚ, vpaCell (Cell.r v) Cell.null = some Cell.null ∧
      vpaCell Cell.null (Cell.r v) = some Cell.null) ∧
    (∀ v : ℚ, 0 < v → vpaCell (Cell.r v) (Cell.r 0) = some (Cell.inf true)) := by
  refine ⟨?_, ?_, ?_, ?_, ?_⟩
  · intro v a ha
    constructor
    · simp [vpaCell, cellToF, pfDiv, ha.ne', pfRound2, pfToCell]
    · exact round2py_recover v a ha
  · intro year r a hsome ha hyear
    constructor
    · simp [update_valor_m2, hsome, hyear, ha]
    · exact round2sql_recover r.valor_avaliacao a ha
  · intro year r h
    rcases h with hnone | ⟨a, hle, hsome⟩
    · simp [update_valor_m2, hnone]
    · simp [update_valor_m2, hsome, not_lt.mpr hle]
  · intro v
    exact ⟨rfl, rfl⟩
  · intro v hv
    simp [vpaCell, cellToF, pfDiv, hv, pfRound2, pfToCell]

/-- C4 counterexample to the claim as stated: the in-process variant maps
a zero built area to positive infinity, not to a null `valor_por_m2`. -/
theorem C4_counterexample :
    vpaCell (Cell.r 100) (Cell.r 0) = some (Cell.inf true) ∧
    some (Cell.inf true) ≠ some Cell.null := by
  constructor
  · with_unfolding_all rfl
  · decide

/-- C4 witness: the amended theorem applied at value 100 and areas 50, 0
and NULL. -/
theorem C4_witness :
    vpaCell (Cell.r 100) (Cell.r 50) = some (Cell.r (round2py (100 / 50))) ∧
    |round2py ((100 : ℚ) / 50) * 50 - 100| ≤ 50 / 200 ∧
    (update_valor_m2 "2023" (TRowM.mk 100 (some 50) none "2023")).valor_por_m2 =
      some (round2sql ((100 : ℚ) / 50)) ∧
    update_valor_m2 "2023" (TRowM.mk 100 (some 0) none "2023") =
      TRowM.mk 100 (some 0) none "2023" ∧
    vpaCell (Cell.r 100) Cell.null = some Cell.null ∧
    vpaCell (Cell.r 100) (Cell.r 0) = some (Cell.inf true) := by
  obtain ⟨p1, p2, p3, p4, p5⟩ := C4_value_per_area
  have h1 := p1 100 50 (by norm_num)
  have h2 := p2 "2023" (TRowM.mk 100 (some 50) none "2023") 50 rfl (by norm_num) rfl
  have h3 := p3 "2023" (TRowM.mk 100 (some 0) none "2023")
    (Or.inr ⟨0, le_refl 0, rfl⟩)
  exact ⟨h1.1, h1.2, h2.1, h3, (p4 100).1, p5 100 (by norm_num)⟩

/-- C5 (amended): the in-database transform never deletes or mutates raw
rows; a transformed row of another year was already present; every
transformed row of the processed year arises from a raw row of that year
whose text passes the NULL/''/'nan' filter, carrying its CAST-coerced
value.  That value need not be strictly positive: `0,00` passes the filter
and coerces to 0. -/
theorem C5_transform_filter (db : Db) (year : String) :
    (transform_data_types_in_db db year).raw = db.raw ∧
    (∀ t ∈ (transform_data_types_in_db db year).transformed,
      (t.source_year ≠ year → t ∈ db.transformed) ∧
      (t.source_year = year →
        ∃ r ∈ db.raw, r.source_year = year ∧ valorPasses r.valor_avaliacao = true ∧
          t.valor_avaliacao = coerceValorSql (r.valor_avaliacao.getD ""))) ∧
    valorPasses none = false ∧ valorPasses (some "") = false ∧
    valorPasses (some "nan") = false ∧ coerceValorSql "0,00" = 0 := by
  refine ⟨rfl, ?_, rfl, by decide, by decide, by with_unfolding_all rfl⟩
  intro t ht
  simp only [transform_data_types_in_db] at ht
  rcases List.mem_append.1 ht with hk | hi
  · have hk2 := List.mem_filter.1 hk
    have hne : t.source_year ≠ year := by simpa using hk2.2
    exact ⟨fun _ => hk2.1, fun he => absurd he hne⟩
  · obtain ⟨r, hr, rfl⟩ := List.mem_map.1 hi
    have hr2 := List.mem_filter.1 hr
    have hprop : r.source_year = year ∧ valorPasses r.valor_avaliacao = true := by
      simpa using hr2.2
    constructor
    · intro hne
      exact absurd hprop.1 hne
    · intro _
      exact ⟨r, hr2.1, hprop.1, hprop.2, rfl⟩

/-- C5 counterexample to the claim as stated: a raw row with value `0,00`
yields a transformed row whose assessed value is 0, so not every
transformed row of the year has a strictly positive value. -/
theorem C5_counterexample :
    (transform_data_types_in_db dbC5 "2023").transformed.map TRow.valor_avaliacao = [0] ∧
    ¬ ∀ t ∈ (transform_data_types_in_db dbC5 "2023").transformed,
        0 < t.valor_avaliacao := by
  have he : (transform_data_types_in_db dbC5 "2023").transformed = [TRow.mk 0 "2023"] := by
    with_unfolding_all rfl
  constructor
  · rw [he]
    rfl
  · intro h
    have h2 := h (TRow.mk 0 "2023") (by rw [he]; exact List.mem_singleton_self _)
    exact lt_irrefl 0 h2

/-- C5 witness: the amended theorem at the concrete two-row raw database
(one `0,00` row, one empty-string row). -/
theorem C5_witness :
    (transform_data_types_in_db dbC5 "2023").raw = dbC5.raw ∧
    valorPasses (some "") = false ∧ coerceValorSql "0,00" = 0 :=
  ⟨(C5_transform_filter dbC5 "2023").1,
   (C5_transform_filter dbC5 "2023").2.2.2.1,
   (C5_transform_filter dbC5 "2023").2.2.2.2.2⟩

/-- C6: raw loading is idempotent per year.  When every incoming row is
tagged with the loaded year and the first load succeeds, loading the same
dataset again succeeds and leaves the table unchanged: the year's rows are
exactly the stringified dataset and the other years' rows are untouched. -/
theorem C6_load_idempotent (df : List SrcRow) (year : String) (raw out : List RawRow)
    (hy : ∀ r ∈ df, r.source_year = year)
    (h1 : load_raw_dataset df year raw = some out) :
    load_raw_dataset df year out = some out ∧
    out.filter (fun r => r.source_year = year) = df.map stringifyRow ∧
    out.filter (fun r => r.source_year ≠ year) =
      raw.filter (fun r => r.source_year ≠ year) := by
  simp only [load_raw_dataset] at h1
  by_cases hnd : (((raw.filter fun r => r.source_year ≠ year) ++ df.map stringifyRow).map
      rawKey).Nodup
  case neg =>
    rw [if_neg hnd] at h1
    exact absurd h1 (by simp)
  rw [if_pos hnd] at h1
  obtain rfl := Option.some.inj h1
  have hnew_year : ∀ r ∈ df.map stringifyRow, r.source_year = year := by
    intro r hr
    obtain ⟨s, hs, rfl⟩ := List.mem_map.1 hr
    exact hy s hs
  have hrem_ne : ∀ r ∈ raw.filter fun r => r.source_year ≠ year,
      r.source_year ≠ year := by
    intro r hr
    simpa using (List.mem_filter.1 hr).2
  have f1 : (df.map stringifyRow).filter (fun r => r.source_year = year) =
      df.map stringifyRow := by
    rw [List.filter_eq_self]
    intro a ha
    simpa using hnew_year a ha
  have f2 : (raw.filter fun r => r.source_year ≠ year).filter
      (fun r => r.source_year = year) = [] := by
    rw [List.filter_eq_nil_iff]
    intro a ha
    simpa using hrem_ne a ha
  have f3 : (df.map stringifyRow).filter (fun r => r.source_year ≠ year) = [] := by
    rw [List.filter_eq_nil_iff]
    intro a ha
    simpa using hnew_year a ha
  have f4 : (raw.filter fun r => r.source_year ≠ year).filter
      (fun r => r.source_year ≠ year) = raw.filter fun r => r.source_year ≠ year := by
    rw [List.filter_eq_self]
    intro a ha
    simpa using hrem_ne a ha
  refine ⟨?_, ?_, ?_⟩
  · simp only [load_raw_dataset]
    rw [List.filter_append, f3, f4, List.append_nil, if_pos hnd]
  · rw [List.filter_append, f1, f2, List.nil_append]
  · rw [List.filter_append, f3, f4, List.append_nil]

/-- C6 witness: one row tagged 2023 loaded twice over a table holding a
2022 row. -/
theorem C6_witness :
    load_raw_dataset [src2023] "2023" [rawOther] =
      some ([rawOther] ++ [stringifyRow src2023]) ∧
    load_raw_dataset [src2023] "2023" ([rawOther] ++ [stringifyRow src2023]) =
      some ([rawOther] ++ [stringifyRow src2023]) ∧
    ([rawOther] ++ [stringifyRow src2023]).filter
        (fun r => r.source_year = "2023") = [src2023].map stringifyRow := by
  have h1 : load_raw_dataset [src2023] "2023" [rawOther] =
      some ([rawOther] ++ [stringifyRow src2023]) := by decide
  have h := C6_load_idempotent [src2023] "2023" [rawOther]
    ([rawOther] ++ [stringifyRow src2023]) (by decide) h1
  exact ⟨h1, h.1, h.2.1⟩

/-- Length of a `joinMap` is the sum of the piece lengths. -/
theorem joinMap_length {α β : Type} (g : α → List β) (l : List α) :
    (joinMap g l).length = (l.map fun a => (g a).length).sum := by
  induction l with
  | nil => rfl
  | cons a l ih => simp [joinMap, ih]

/-- Membership in a `joinMap`. -/
theorem mem_joinMap {α β : Type} (g : α → List β) (l : List α) (b : β) :
    b ∈ joinMap g l ↔ ∃ a ∈ l, b ∈ g a := by
  induction l with
  | nil => simp [joinMap]
  | cons a l ih => simp [joinMap, ih]

/-- `joinMap` distributes over append. -/
theorem joinMap_append {α β : Type} (g : α → List β) (l1 l2 : List α) :
    joinMap g (l1 ++ l2) = joinMap g l1 ++ joinMap g l2 := by
  induction l1 with
  | nil => rfl
  | cons a l ih => simp [joinMap, ih]

/-- Membership across the `dedupFirst` fold. -/
theorem mem_dedupFirst_aux (l acc : List String) (x : String) :
    (x ∈ l.foldl (fun acc x => if x ∈ acc then acc else acc ++ [x]) acc) ↔
      x ∈ acc ∨ x ∈ l := by
  induction l generalizing acc with
  | nil => simp
  | cons c l ih =>
    simp only [List.foldl_cons]
    by_cases hc : c ∈ acc
    · rw [if_pos hc, ih]
      simp only [List.mem_cons]
      constructor
      · rintro (h | h)
        · exact Or.inl h
        · exact Or.inr (Or.inr h)
      · rintro (h | rfl | h)
        · exact Or.inl h
        · exact Or.inl hc
        · exact Or.inr h
    · rw [if_neg hc, ih]
      simp only [List.mem_append, List.mem_cons, List.mem_singleton,
        List.not_mem_nil, or_false]
      constructor
      · rintro ((h | h) | h)
        · exact Or.inl h
        · exact Or.inr (Or.inl h)
        · exact Or.inr (Or.inr h)
      · rintro (h | h | h)
        · exact Or.inl (Or.inl h)
        · exact Or.inl (Or.inr h)
        · exact Or.inr h

/-- `dedupFirst` preserves membership. -/
theorem mem_dedupFirst (l : List String) (x : String) :
    x ∈ dedupFirst l ↔ x ∈ l := by
  unfold dedupFirst
  rw [mem_dedupFirst_aux]
  simp

/-- `colOf` on a frame built by mapping names to columns. -/
theorem colOf_mapNames (names : List String) (g : String → List Cell) (n : String) :
    colOf (names.map fun m => (⟨m, g m⟩ : Col)) n =
      if n ∈ names then some ⟨n, g n⟩ else none := by
  induction names with
  | nil => simp [colOf]
  | cons m names ih =>
    simp only [List.map_cons, colOf] at ih ⊢
    by_cases h : m = n
    · subst h
      rw [List.find?_cons_of_pos _ (by simp)]
      simp
    · rw [List.find?_cons_of_neg _ (by simp [h])]
      rw [ih]
      by_cases hn : n ∈ names
      · rw [if_pos hn, if_pos (List.mem_cons_of_mem m hn)]
      · rw [if_neg hn,
          if_neg (fun hmem => (List.mem_cons.1 hmem).elim (fun e => h e.symm) hn)]

/-- A name resolves in a frame exactly when some column carries it. -/
theorem colOf_isSome (f : Frame) (n : String) :
    (colOf f n).isSome = true ↔ n ∈ f.map Col.name := by
  simp only [colOf, List.find?_isSome, List.mem_map, decide_eq_true_eq]

/-- The block of a `joinMap` contributed by one list element, extracted by
`drop`/`take`, when every piece has its declared length. -/
theorem joinMap_slice {α β : Type} (g : α → List β) (L : α → ℕ)
    (l1 : List α) (f : α) (l2 : List α)
    (h1 : ∀ a ∈ l1, (g a).length = L a) (hf : (g f).length = L f) :
    ((joinMap g (l1 ++ f :: l2)).drop ((l1.map L).sum)).take (L f) = g f := by
  have hlen1 : (joinMap g l1).length = (l1.map L).sum := by
    rw [joinMap_length]
    congr 1
    exact List.map_congr_left h1
  have expand : joinMap g (f :: l2) = g f ++ joinMap g l2 := rfl
  rw [joinMap_append, expand, ← hlen1, List.drop_left, ← hf, List.take_left]

/-- C7: consolidation of per-year frames concatenates all rows (each output
column has as many cells as the input row counts sum to), the output
column set is the union of the input column sets, and for any frame of the
collection its block of rows carries the frame's own cells where the
column exists and nulls where it does not. -/
theorem C7_consolidation (fs : List Frame) (_hne : fs ≠ [])
    (hrect : ∀ f ∈ fs, Rect f) :
    (∀ c ∈ consolidate_datasets fs, c.cells.length = (fs.map nRows).sum) ∧
    (∀ n : String, (colOf (consolidate_datasets fs) n).isSome = true ↔
      ∃ f ∈ fs, (colOf f n).isSome = true) ∧
    (∀ (l1 : List Frame) (f : Frame) (l2 : List Frame), fs = l1 ++ f :: l2 →
      ∀ (n : String) (c : Col), colOf (consolidate_datasets fs) n = some c →
        (c.cells.drop ((l1.map nRows).sum)).take (nRows f) =
          (match colOf f n with
           | some c0 => c0.cells
           | none => List.replicate (nRows f) Cell.null)) := by
  have contrib_len : ∀ n : String, ∀ f ∈ fs,
      (match colOf f n with
       | some c0 => c0.cells
       | none => List.replicate (nRows f) Cell.null).length = nRows f := by
    intro n f hf
    cases hcol : colOf f n with
    | none => simp
    | some c0 =>
      have hmem : c0 ∈ f := List.mem_of_find?_eq_some hcol
      simpa using hrect f hf c0 hmem
  refine ⟨?_, ?_, ?_⟩
  · intro c hc
    simp only [consolidate_datasets] at hc
    obtain ⟨n, hn, rfl⟩ := List.mem_map.1 hc
    show (joinMap _ fs).length = _
    rw [joinMap_length]
    congr 1
    exact List.map_congr_left fun f hf => contrib_len n f hf
  · intro n
    simp only [consolidate_datasets]
    rw [colOf_mapNames]
    by_cases h : n ∈ dedupFirst (joinMap (fun f => f.map Col.name) fs)
    · rw [if_pos h]
      simp only [Option.isSome_some, true_iff]
      rw [mem_dedupFirst, mem_joinMap] at h
      obtain ⟨f, hf, hnf⟩ := h
      exact ⟨f, hf, (colOf_isSome f n).2 hnf⟩
    · rw [if_neg h]
      simp only [Option.isSome_none, Bool.false_eq_true, false_iff]
      rintro ⟨f, hf, hsome⟩
      rw [mem_dedupFirst, mem_joinMap] at h
      exact h ⟨f, hf, (colOf_isSome f n).1 hsome⟩
  · intro l1 f l2 hfs n c hcol
    simp only [consolidate_datasets] at hcol
    rw [colOf_mapNames] at hcol
    by_cases h : n ∈ dedupFirst (joinMap (fun g => g.map Col.name) fs)
    case neg =>
      rw [if_neg h] at hcol
      cases hcol
    rw [if_pos h] at hcol
    have hcells : c.cells = joinMap (fun g =>
        match colOf g n with
        | some c0 => c0.cells
        | none => List.replicate (nRows g) Cell.null) fs := by
      rw [← Option.some.inj hcol]
    have hsub1 : ∀ a ∈ l1, a ∈ fs := by
      intro a ha
      rw [hfs]
      exact List.mem_append_left _ ha
    have hmemf : f ∈ fs := by
      rw [hfs]
      exact List.mem_append_right _ (List.mem_cons_self f l2)
    rw [hcells, hfs]
    exact joinMap_slice _ nRows l1 f l2
      (fun a ha => contrib_len n a (hsub1 a ha)) (contrib_len n f hmemf)

/-- C7 witness: the consolidation theorem at two concrete frames with
overlapping column sets. -/
theorem C7_witness :
    (colOf (consolidate_datasets [frameA, frameB]) "c").isSome = true ∧
    (⟨"a", [Cell.i 1, Cell.i 2, Cell.i 3]⟩ : Col).cells.length =
      ([frameA, frameB].map nRows).sum := by
  have h := C7_consolidation [frameA, frameB] (by simp)
    (by
      intro f hf
      unfold Rect
      fin_cases hf <;> decide)
  constructor
  · exact (h.2.1 "c").2 ⟨frameB, by simp, by decide⟩
  · exact h.1 ⟨"a", [Cell.i 1, Cell.i 2, Cell.i 3]⟩ (by decide)

/-- The ETL extraction fold, started from any accumulator, appends exactly
the successful years. -/
theorem extract_etl_foldl (fetch : String → Except String Frame)
    (urls : List (String × String)) (acc : List (String × Frame)) :
    (urls.foldl (fun acc p =>
      match processYearEtl fetch p.1 p.2 with
      | .ok df => acc ++ [(p.1, df)]
      | .error _ => acc) acc) =
    acc ++ urls.filterMap (fun p =>
      match processYearEtl fetch p.1 p.2 with
      | .ok df => some (p.1, df)
      | .error _ => none) := by
  induction urls generalizing acc with
  | nil => simp
  | cons p urls ih =>
    simp only [List.foldl_cons, List.filterMap_cons]
    cases hp : processYearEtl fetch p.1 p.2 with
    | ok df =>
      simp only [hp]
      rw [ih]
      simp
    | error e =>
      simp only [hp]
      rw [ih]

/-- The ELT extraction fold, started from any accumulator, appends exactly
the successful years. -/
theorem extract_elt_foldl (fetch : String → Except String Frame)
    (urls : List (String × String)) (acc : List (String × Frame)) :
    (urls.foldl (fun acc p =>
      match processYearElt fetch p.1 p.2 with
      | .ok df => acc ++ [(p.1, df)]
      | .error _ => acc) acc) =
    acc ++ urls.filterMap (fun p =>
      match processYearElt fetch p.1 p.2 with
      | .ok df => some (p.1, df)
      | .error _ => none) := by
  induction urls generalizing acc with
  | nil => simp
  | cons p urls ih =>
    simp only [List.foldl_cons, List.filterMap_cons]
    cases hp : processYearElt fetch p.1 p.2 with
    | ok df =>
      simp only [hp]
      rw [ih]
      simp
    | error e =>
      simp only [hp]
      rw [ih]

/-- C8: both extraction loops deliver exactly the years whose own fetch,
metadata and validation step succeeds; each year's presence in the result
depends only on that year's outcome, so one year's failure never aborts
another's extraction. -/
theorem C8_extraction_isolation (fetch : String → Except String Frame)
    (urls : List (String × String)) :
    extract_itbi_data fetch urls = urls.filterMap (fun p =>
      match processYearEtl fetch p.1 p.2 with
      | .ok df => some (p.1, df)
      | .error _ => none) ∧
    extract_itbi_data_elt fetch urls = urls.filterMap (fun p =>
      match processYearElt fetch p.1 p.2 with
      | .ok df => some (p.1, df)
      | .error _ => none) ∧
    (∀ (y : String) (df : Frame), (y, df) ∈ extract_itbi_data fetch urls ↔
      ∃ url, (y, url) ∈ urls ∧ processYearEtl fetch y url = .ok df) ∧
    (∀ (y : String) (df : Frame), (y, df) ∈ extract_itbi_data_elt fetch urls ↔
      ∃ url, (y, url) ∈ urls ∧ processYearElt fetch y url = .ok df) := by
  have h1 : extract_itbi_data fetch urls = urls.filterMap (fun p =>
      match processYearEtl fetch p.1 p.2 with
      | .ok df => some (p.1, df)
      | .error _ => none) := by
    unfold extract_itbi_data
    rw [extract_etl_foldl]
    rfl
  have h2 : extract_itbi_data_elt fetch urls = urls.filterMap (fun p =>
      match processYearElt fetch p.1 p.2 with
      | .ok df => some (p.1, df)
      | .error _ => none) := by
    unfold extract_itbi_data_elt
    rw [extract_elt_foldl]
    rfl
  refine ⟨h1, h2, ?_, ?_⟩
  · intro y df
    rw [h1, List.mem_filterMap]
    constructor
    · rintro ⟨⟨a, b⟩, hp, heq⟩
      cases hp2 : processYearEtl fetch a b with
      | error e =>
        rw [hp2] at heq
        cases heq
      | ok d =>
        rw [hp2] at heq
        simp only [Option.some.injEq, Prod.mk.injEq] at heq
        obtain ⟨rfl, rfl⟩ := heq
        exact ⟨b, hp, hp2⟩
    · rintro ⟨url, hmem, hok⟩
      exact ⟨(y, url), hmem, by simp [hok]⟩
  · intro y df
    rw [h2, List.mem_filterMap]
    constructor
    · rintro ⟨⟨a, b⟩, hp, heq⟩
      cases hp2 : processYearElt fetch a b with
      | error e =>
        rw [hp2] at heq
        cases heq
      | ok d =>
        rw [hp2] at heq
        simp only [Option.some.injEq, Prod.mk.injEq] at heq
        obtain ⟨rfl, rfl⟩ := heq
        exact ⟨b, hp, hp2⟩
    · rintro ⟨url, hmem, hok⟩
      exact ⟨(y, url), hmem, by simp [hok]⟩

/-- C8 witness: the isolation theorem at a fetch that always fails — both
variants extract nothing and raise nothing. -/
theorem C8_witness :
    extract_itbi_data (fun _ => Except.error "down")
      [("2023", "u1"), ("2024", "u2")] = [] ∧
    extract_itbi_data_elt (fun _ => Except.error "down")
      [("2023", "u1"), ("2024", "u2")] = [] := by
  have h := C8_extraction_isolation (fun _ => Except.error "down")
    [("2023", "u1"), ("2024", "u2")]
  constructor
  · rw [h.1]
    rfl
  · rw [h.2.1]
    rfl

/-- C9: the null-handling step touches only the `complemento` column,
replacing exactly its nulls with the fixed placeholder; every other column
is returned untouched (position, name and every cell, nulls included). -/
theorem C9_null_handling (f : Frame) :
    (handle_missing_values f).length = f.length ∧
    (∀ (i : ℕ) (c : Col), f.get? i = some c →
      (c.name ≠ "complemento" → (handle_missing_values f).get? i = some c) ∧
      (c.name = "complemento" →
        (handle_missing_values f).get? i =
          some ⟨c.name, c.cells.map fillComplemento⟩)) ∧
    (∀ x : Cell, x ≠ Cell.null → fillComplemento x = x) ∧
    fillComplemento Cell.null = Cell.s "Sem complemento" := by
  refine ⟨by simp [handle_missing_values], ?_, ?_, rfl⟩
  · intro i c hc
    have hmap : (handle_missing_values f).get? i = (f.get? i).map
        (fun c => if c.name = "complemento" then
          (⟨c.name, c.cells.map fillComplemento⟩ : Col) else c) := by
      simp [handle_missing_values, List.get?_eq_getElem?, List.getElem?_map]
    constructor
    · intro hne
      rw [hmap, hc]
      simp [hne]
    · intro heq
      rw [hmap, hc]
      simp [heq]
  · intro x hx
    cases x with
    | null => exact absurd rfl hx
    | s v => rfl
    | r v => rfl
    | inf p => rfl
    | i v => rfl
    | b v => rfl
    | d v => rfl

/-- C9 witness: the null-handling theorem at a two-column frame with a null
in each column. -/
theorem C9_witness :
    (handle_missing_values frameC9).get? 0 =
      some ⟨"complemento", [Cell.s "Sem complemento", Cell.s "Apto 101"]⟩ ∧
    (handle_missing_values frameC9).get? 1 =
      some ⟨"bairro", [Cell.null, Cell.s "Pina"]⟩ := by
  have h := C9_null_handling frameC9
  constructor
  · have h0 := (h.2.1 0 ⟨"complemento", [Cell.null, Cell.s "Apto 101"]⟩ rfl).2 rfl
    simpa [fillComplemento] using h0
  · exact (h.2.1 1 ⟨"bairro", [Cell.null, Cell.s "Pina"]⟩ rfl).1 (by decide)

/-- C10: the raw loader stringifies every data cell and keeps only the
three metadata columns unconverted, so a missing value is stored as the
literal text `nan`, never as SQL NULL; the data-quality view counts
exactly NULL, the empty string and `nan` as missing, and the in-database
transform filter accepts exactly the non-missing values. -/
theorem C10_raw_text_cells :
    (∀ r : SrcRow,
      (stringifyRow r).valor_avaliacao = some (pyStr r.valor_avaliacao) ∧
      (stringifyRow r).bairro = some (pyStr r.bairro) ∧
      (stringifyRow r).data_transacao = some (pyStr r.data_transacao) ∧
      (stringifyRow r).other = r.other.map (fun c => some (pyStr c)) ∧
      (stringifyRow r).source_year = r.source_year ∧
      (stringifyRow r).extraction_timestamp = r.extraction_timestamp ∧
      (stringifyRow r).pipeline_type = r.pipeline_type) ∧
    (∀ r : SrcRow, r.valor_avaliacao = Cell.null →
      (stringifyRow r).valor_avaliacao = some "nan") ∧
    pyStr Cell.null = "nan" ∧
    missingValor (some "nan") = true ∧ missingValor (some "") = true ∧
    missingValor none = true ∧
    (∀ v : Option String, valorPasses v = !missingValor v) := by
  refine ⟨?_, ?_, rfl, by decide, by decide, rfl, ?_⟩
  · intro r
    exact ⟨rfl, rfl, rfl, rfl, rfl, rfl, rfl⟩
  · intro r h
    simp [stringifyRow, h, pyStr]
  · intro v
    cases v with
    | none => rfl
    | some s =>
      by_cases h1 : s = "" <;> by_cases h2 : s = "nan" <;>
        simp [valorPasses, missingValor, h1, h2]

/-- C10 witness: a row with a missing assessed value is stored as the text
`nan`, which the view counts as missing and the transform filter rejects. -/
theorem C10_witness :
    (stringifyRow srcNullValor).valor_avaliacao = some "nan" ∧
    missingValor (some "nan") = true ∧ valorPasses (some "nan") = false := by
  have h := C10_raw_text_cells
  refine ⟨h.2.1 srcNullValor rfl, h.2.2.2.1, ?_⟩
  rw [h.2.2.2.2.2.2 (some "nan")]
  rfl

end Itbi
